import Mathlib

/-!
Shallow embedding of `src/antsibull/tagging.py` (validation that collection
releases are tagged in their git repositories), together with theorems
checking the specification's claims about it.

Modelling conventions:
* Python strings are Lean `String`s; values Python types as `str | None`
  are `Option String`.
* Python truthiness on such values (`if not repository:` is taken both for
  `None` and for the empty string `""`) is the function `truthy`.
* A compiled regular expression is modelled abstractly by its matching
  function (`Matcher`): the result is `none` when the pattern does not match
  the string, and `some g` when it matches with first capture group `g`
  (`g = none` models a group that did not participate in the match).
  `re.compile` is passed in as a parameter `compile : String → Option Matcher`
  returning `none` when the pattern text is rejected (`re.error`).
* The two fixed patterns of the source are modelled on the single-line
  strings they are actually applied to (tags and `git ls-remote` output
  lines, which contain no newline): `TAG_VERSION_REGEX` (`^v?(.*)$`) always
  matches and captures the string with one leading `v` stripped;
  `TAG_MATCHER` (`^.*refs/tags/(.*)$`) matches iff `refs/tags/` occurs in
  the line and, the leading `.*` being greedy, captures the part after the
  last occurrence.
* The fetcher's subprocess is modelled by its observable result
  (`ProcResult`: exit code and decoded stdout split into lines); the async
  generator `_get_tags` becomes the finite list of tags it yields.
* The per-collection resolver `_get_collection_tags` takes the fetcher as a
  parameter `fetch` and additionally records, in `ResolveResult`, which
  repositories were fetched and which error-level log records were emitted
  (as pairs of the `collection` log field and the message text), so that
  "no fetch is attempted" and the logging claims are statable.
* Python `repr` of a collection name (`{name!r}`) is modelled as wrapping in
  single quotes (`pyRepr`), exact for names without quotes, backslashes or
  non-printable characters — the only names the messages are built from.
* `set(ignores)` is modelled as `List.dedup`; Python's unordered set
  iteration is determinised to the list order, which no claim depends on.
-/

/-- Python truthiness of a `str | None` value: `None` and `""` are falsy. -/
def truthy : Option String → Bool
  | none => false
  | some s => !(s == "")

/-- The `CollectionTagData` `TypedDict`: `version`, `repository`, `tag`,
and the `NotRequired` key `collection_directory` (absent modelled as
`none`). -/
structure CollectionTagData where
  version : String
  repository : Option String
  tag : Option String
  collection_directory : Option String := none
  deriving Repr, DecidableEq

/-- The fields of `antsibull_core`'s `CollectionMetadata` that
`_get_collection_tags` reads: `repository`, `tag_version_regex`,
`collection_directory`. -/
structure CollectionMetadata where
  repository : Option String
  tag_version_regex : Option String
  collection_directory : Option String := none
  deriving Repr, DecidableEq

/-- A compiled regular expression, abstracted by its `match` function:
`none` = no match, `some g` = match whose first capture group is `g`. -/
abbrev Matcher := String → Option (Option String)

/-- Whether a string's first character is `v` (Python strings are sequences
of code points, modelled by the `String`'s character list). -/
def headIsV (s : String) : Bool :=
  match s.data with
  | c :: _ => c == 'v'
  | [] => false

/-- Strip one leading `v` from a string, if present. -/
def stripLeadingV (s : String) : String :=
  match s.data with
  | c :: rest => if c == 'v' then ⟨rest⟩ else s
  | [] => s

/-- Embedding of `TAG_VERSION_REGEX = re.compile(r"^v?(.*)$")` applied to a (single-line)
tag: it always matches, `v?` greedily consuming one leading `v`, and group 1
captures the remainder. -/
def TAG_VERSION_REGEX : Matcher := fun tag =>
  some (some (stripLeadingV tag))

/-- Embedding of `_normalize_tag(tag, regex)`: `regex = regex or TAG_VERSION_REGEX`
(a compiled pattern is always truthy); if the regex matches, return
`match.group(1)`, else return the tag unchanged. Total — it never raises
on unmatched input. -/
def _normalize_tag (tag : String) (regex : Option Matcher) : Option String :=
  match (regex.getD TAG_VERSION_REGEX) tag with
  | some g => g
  | none => some tag

/-- The observable result of the `git ls-remote --refs --tags <repository>`
subprocess: exit code and decoded stdout split into lines. -/
structure ProcResult where
  returncode : Int
  stdout_lines : List String
  deriving Repr, DecidableEq

/-- The characters after the last occurrence of `sep` in a character list
(`none` when `sep` does not occur): occurrences in the tail take precedence,
which picks the rightmost one. -/
def afterLast (sep : List Char) : List Char → Option (List Char)
  | [] => if sep.isPrefixOf ([] : List Char) then some [] else none
  | c :: cs =>
    match afterLast sep cs with
    | some r => some r
    | none =>
      if sep.isPrefixOf (c :: cs) then some ((c :: cs).drop sep.length)
      else none

/-- Embedding of `TAG_MATCHER = re.compile(r"^.*refs/tags/(.*)$")` applied to one
(newline-free) output line: matches iff `refs/tags/` occurs, and the greedy
leading `.*` makes group 1 the part after the last occurrence. -/
def TAG_MATCHER (line : String) : Option String :=
  (afterLast "refs/tags/".data line.data).map fun cs => ⟨cs⟩

/-- Embedding of `_get_tags(repository)` as a function of the subprocess's observable
result: on a non-zero exit code it logs and yields nothing; on empty output
it warns and yields nothing; otherwise it yields `match.group(1)` for every
line matched by `TAG_MATCHER` and skips the rest. -/
def _get_tags (proc : ProcResult) : List String :=
  if proc.returncode != 0 then []
  else if proc.stdout_lines.isEmpty then []
  else proc.stdout_lines.filterMap TAG_MATCHER

/-- Result of `_get_collection_tags`, instrumented with its observable side
effects: the repositories passed to the fetcher and the error-level log
records emitted (pairs of the `collection` log field and the message). -/
structure ResolveResult where
  data : CollectionTagData
  fetched : List String
  log_errors : List (String × String)
  deriving Repr, DecidableEq

/-- Embedding of `_get_collection_tags(version, meta_data, name)`, with the fetcher and
`re.compile` passed in as parameters. Mirrors the source: build the record
with `tag = None` (setting `collection_directory` only when truthy); return
it if `repository` is falsy; if `tag_version_regex` is truthy, compile it —
on `re.error` log `f"{tag_version_regex} is an invalid regex"` (the local
variable `tag_version_regex`, still `None` at that point, so the message
text is literally `"None is an invalid regex"`) with the collection name as
a log field, and return the record; otherwise take the first fetched tag
whose `_normalize_tag` value equals `version`. -/
def _get_collection_tags (fetch : String → List String)
    (compile : String → Option Matcher) (version : String)
    (meta_data : CollectionMetadata) (name : String) : ResolveResult :=
  let repository := meta_data.repository
  let data0 : CollectionTagData :=
    { version := version
      repository := repository
      tag := none
      collection_directory :=
        if truthy meta_data.collection_directory then
          meta_data.collection_directory
        else none }
  if truthy repository = false then
    { data := data0, fetched := [], log_errors := [] }
  else
    let compiled : Option (Option Matcher) :=
      if truthy meta_data.tag_version_regex then
        match compile (meta_data.tag_version_regex.getD "") with
        | none => none
        | some rx => some (some rx)
      else some none
    match compiled with
    | none =>
        { data := data0
          fetched := []
          log_errors := [(name, "None is an invalid regex")] }
    | some tag_version_regex =>
        let repo := repository.getD ""
        { data := { data0 with
            tag := (fetch repo).find?
              (fun t => _normalize_tag t tag_version_regex == some version) }
          fetched := [repo]
          log_errors := [] }

/-- Python `repr` of a collection name (`{name!r}`), for names without
quotes, backslashes or non-printable characters. -/
def pyRepr (s : String) : String := "'" ++ s ++ "'"

/-- Message `f"useless ignore {name!r}: {name} {version} is properly tagged"`. -/
def uselessMsg (name version : String) : String :=
  "useless ignore " ++ pyRepr name ++ ": " ++ name ++ " " ++ version ++
    " is properly tagged"

/-- Message `f"{name}'s repository is not specified at all in collection-meta.yaml"`. -/
def noRepoMsg (name : String) : String :=
  name ++ "'s repository is not specified at all in collection-meta.yaml"

/-- Message `f"{name} {version} is not tagged in {repository}"`. -/
def notTaggedMsg (name version repository : String) : String :=
  name ++ " " ++ version ++ " is not tagged in " ++ repository

/-- Message `f"invalid ignore {name!r}: {name} does not match any collection"`. -/
def invalidIgnoreMsg (name : String) : String :=
  "invalid ignore " ++ pyRepr name ++ ": " ++ name ++
    " does not match any collection"

/-- The `for name, data in tag_data.items():` loop of `validate_tags`,
threading the mutable `ignore_set`; returns the errors appended by the loop
and the final state of the working ignore set. The `if / elif / elif` chain
of the source appends at most one message per collection; it is rendered
here as the 0- or 1-element block prepended for this entry. -/
def validateTagsLoop :
    List (String × CollectionTagData) → List String → Bool →
      List String × List String
  | [], ignore_set, _ => ([], ignore_set)
  | (name, data) :: rest, ignore_set, error_on_useless_ignores =>
      if name ∈ ignore_set then
        let r := validateTagsLoop rest (ignore_set.erase name)
          error_on_useless_ignores
        ((if truthy data.repository && truthy data.tag &&
              error_on_useless_ignores then
            [uselessMsg name data.version]
          else []) ++ r.1, r.2)
      else
        let r := validateTagsLoop rest ignore_set error_on_useless_ignores
        ((if truthy data.repository = false then [noRepoMsg name]
          else if truthy data.tag = false then
            [notTaggedMsg name data.version (data.repository.getD "")]
          else []) ++ r.1, r.2)

/-- Embedding of `validate_tags(tag_data, ignores, error_on_useless_ignores)`: copy the
caller's ignores into a fresh working set (`ignore_set = set(ignores)`,
modelled by `List.dedup`), run the per-collection loop, then, if the working
set is non-empty and `error_on_useless_ignores`, append one invalid-ignore
message per remaining name. -/
def validate_tags (tag_data : List (String × CollectionTagData))
    (ignores : List String) (error_on_useless_ignores : Bool) : List String :=
  let r := validateTagsLoop tag_data ignores.dedup error_on_useless_ignores
  r.1 ++
    (if !r.2.isEmpty && error_on_useless_ignores then
      r.2.map invalidIgnoreMsg
    else [])

/-- The caller's ignore collection after `validate_tags` returns:
`validate_tags` copies it into a fresh working set (`ignore_set =
set(ignores)`) and never writes to the `ignores` argument itself, so the
caller's collection is unchanged. -/
def ignores_after_validate_tags
    (tag_data : List (String × CollectionTagData)) (ignores : List String)
    (error_on_useless_ignores : Bool) : List String :=
  ignores

/-- The collection names (keys) of a tag-data mapping, in order. -/
def collectionKeys (tag_data : List (String × CollectionTagData)) :
    List String :=
  tag_data.map Prod.fst

/-- The messages the `validate_tags` loop emits for one collection, as a
function of whether its name is (still) in the working ignore set. -/
def entryMsgs (inIgnore : Bool) (name : String) (data : CollectionTagData)
    (error_on_useless_ignores : Bool) : List String :=
  if inIgnore then
    if truthy data.repository && truthy data.tag &&
        error_on_useless_ignores then
      [uselessMsg name data.version]
    else []
  else if truthy data.repository = false then [noRepoMsg name]
  else if truthy data.tag = false then
    [notTaggedMsg name data.version (data.repository.getD "")]
  else []

/-- Closed form of the loop's error output: one `entryMsgs` block per
collection, the ignore test taken against the original ignore set. -/
def loopMsgs :
    List (String × CollectionTagData) → List String → Bool → List String
  | [], _, _ => []
  | (name, data) :: rest, igs, flag =>
      entryMsgs (decide (name ∈ igs)) name data flag ++ loopMsgs rest igs flag

/-- The working ignore set left over after the `validate_tags` loop: the
deduplicated ignores that match no collection name. -/
def remainingIgnores (tag_data : List (String × CollectionTagData))
    (ignores : List String) : List String :=
  ignores.dedup.filter (fun n => decide (n ∉ collectionKeys tag_data))

/-- The invalid-ignore messages `validate_tags` appends after the loop. -/
def invalidTail (tag_data : List (String × CollectionTagData))
    (ignores : List String) (error_on_useless_ignores : Bool) : List String :=
  if !(remainingIgnores tag_data ignores).isEmpty &&
      error_on_useless_ignores then
    (remainingIgnores tag_data ignores).map invalidIgnoreMsg
  else []

/-! ### Helper lemmas -/

theorem truthy_eq_false_iff (x : Option String) :
    truthy x = false ↔ (x = none ∨ x = some "") := by
  cases x with
  | none => simp [truthy]
  | some s =>
    simp only [truthy, Bool.not_eq_false', beq_iff_eq, Option.some.injEq]
    constructor
    · intro h; exact Or.inr h
    · rintro (h | h)
      · cases h
      · exact h

theorem truthy_eq_true_iff (x : Option String) :
    truthy x = true ↔ ∃ s, x = some s ∧ s ≠ "" := by
  cases x with
  | none => simp [truthy]
  | some s => simp [truthy]

/-- First-match decomposition for `List.find?`: a found element splits the
list at its first satisfying position. -/
theorem find_eq_some_decomp {α : Type} (p : α → Bool) :
    ∀ (l : List α) (a : α), l.find? p = some a →
      ∃ l1 l2, l = l1 ++ a :: l2 ∧ p a = true ∧ ∀ x ∈ l1, p x = false := by
  intro l
  induction l with
  | nil => intro a h; simp [List.find?] at h
  | cons b bs ih =>
    intro a h
    by_cases hb : p b = true
    · rw [List.find?_cons_of_pos _ hb] at h
      obtain rfl : b = a := by simpa using h
      exact ⟨[], bs, rfl, hb, by simp⟩
    · rw [List.find?_cons_of_neg _ (by simpa using hb)] at h
      obtain ⟨l1, l2, rfl, hpa, hl1⟩ := ih a h
      refine ⟨b :: l1, l2, rfl, hpa, ?_⟩
      intro x hx
      rcases List.mem_cons.mp hx with rfl | hx
      · simpa using hb
      · exact hl1 x hx

/-- The working ignore set after the `validate_tags` loop: exactly the
ignores that match no collection name (every matched name was removed). -/
theorem validateTagsLoop_snd (flag : Bool) :
    ∀ (td : List (String × CollectionTagData)) (igs : List String),
      igs.Nodup →
      (validateTagsLoop td igs flag).2 =
        igs.filter (fun n => decide (n ∉ collectionKeys td)) := by
  intro td
  induction td with
  | nil =>
    intro igs _
    simp [validateTagsLoop, collectionKeys]
  | cons hd rest ih =>
    obtain ⟨name, data⟩ := hd
    intro igs hnd
    by_cases hmem : name ∈ igs
    · simp only [validateTagsLoop, if_pos hmem]
      rw [ih (igs.erase name) (hnd.erase name), hnd.erase_eq_filter name,
        List.filter_filter]
      apply List.filter_congr
      intro a _
      by_cases ha : a = name
      · subst ha; simp [collectionKeys]
      · simp [collectionKeys, ha, bne, Bool.and_comm]
    · simp only [validateTagsLoop, if_neg hmem]
      rw [ih igs hnd]
      apply List.filter_congr
      intro a hain
      have ha : ¬ a = name := fun h => hmem (h ▸ hain)
      simp [collectionKeys, ha]

/-- The function `loopMsgs` only looks at the ignore set through membership of the
collection names. -/
theorem loopMsgs_congr (flag : Bool) :
    ∀ (td : List (String × CollectionTagData)) (igs1 igs2 : List String),
      (∀ n ∈ collectionKeys td, (n ∈ igs1) ↔ (n ∈ igs2)) →
      loopMsgs td igs1 flag = loopMsgs td igs2 flag := by
  intro td
  induction td with
  | nil => intro igs1 igs2 _; rfl
  | cons hd rest ih =>
    obtain ⟨name, data⟩ := hd
    intro igs1 igs2 h
    have hname : (name ∈ igs1) ↔ (name ∈ igs2) :=
      h name (by simp [collectionKeys])
    simp only [loopMsgs]
    rw [decide_eq_decide.mpr hname,
      ih igs1 igs2 (fun n hn => h n (by simp [collectionKeys]; right; simpa [collectionKeys] using hn))]

theorem loopMsgs_append (flag : Bool) (igs : List String) :
    ∀ (td1 td2 : List (String × CollectionTagData)),
      loopMsgs (td1 ++ td2) igs flag =
        loopMsgs td1 igs flag ++ loopMsgs td2 igs flag := by
  intro td1 td2
  induction td1 with
  | nil => rfl
  | cons hd rest ih =>
    obtain ⟨name, data⟩ := hd
    simp only [List.cons_append, loopMsgs, List.append_eq, ih,
      List.append_assoc]

/-- The error messages produced by the `validate_tags` loop, in closed form:
one `entryMsgs` block per collection, the ignore test taken against the
original working set (possible because, the keys being distinct, the entry
for a name can never run after that same name was erased). -/
theorem validateTagsLoop_fst (flag : Bool) :
    ∀ (td : List (String × CollectionTagData)) (igs : List String),
      (collectionKeys td).Nodup → igs.Nodup →
      (validateTagsLoop td igs flag).1 = loopMsgs td igs flag := by
  intro td
  induction td with
  | nil => intro igs _ _; rfl
  | cons hd rest ih =>
    obtain ⟨name, data⟩ := hd
    intro igs hk hnd
    have hkrest : (collectionKeys rest).Nodup := by
      simpa [collectionKeys] using hk.of_cons
    have hnotkey : name ∉ collectionKeys rest := by
      have := hk
      simp only [collectionKeys, List.map_cons, List.nodup_cons] at this
      simpa [collectionKeys] using this.1
    by_cases hmem : name ∈ igs
    · simp only [validateTagsLoop, if_pos hmem, loopMsgs, decide_eq_true hmem]
      rw [ih (igs.erase name) hkrest (hnd.erase name)]
      rw [loopMsgs_congr flag rest (igs.erase name) igs
        (fun n hn => List.mem_erase_of_ne (fun h => hnotkey (h ▸ hn)))]
      rfl
    · simp only [validateTagsLoop, if_neg hmem, loopMsgs,
        decide_eq_false hmem]
      rw [ih igs hkrest hnd]
      rfl

/-- Closed form of `validate_tags` for tag data with distinct collection
names: the per-collection loop messages followed by the invalid-ignore
messages for the leftover working set. -/
theorem validate_tags_eq (td : List (String × CollectionTagData))
    (igs : List String) (flag : Bool) (hk : (collectionKeys td).Nodup) :
    validate_tags td igs flag = loopMsgs td igs flag ++ invalidTail td igs flag := by
  rw [show validate_tags td igs flag =
      (validateTagsLoop td igs.dedup flag).1 ++
        (if !(validateTagsLoop td igs.dedup flag).2.isEmpty && flag then
          (validateTagsLoop td igs.dedup flag).2.map invalidIgnoreMsg
        else []) from rfl,
    validateTagsLoop_fst flag td igs.dedup hk (List.nodup_dedup igs),
    validateTagsLoop_snd flag td igs.dedup (List.nodup_dedup igs),
    loopMsgs_congr flag td igs.dedup igs
      (fun n _ => List.mem_dedup)]
  rfl

/-- The loop's message block for a collection that is not ignored, phrased
through the explicit `None`-or-empty cases. -/
theorem entryMsgs_not_ignored (name : String) (data : CollectionTagData)
    (flag : Bool) :
    entryMsgs false name data flag =
      (if data.repository = none ∨ data.repository = some "" then
        [noRepoMsg name]
      else if data.tag = none ∨ data.tag = some "" then
        [notTaggedMsg name data.version (data.repository.getD "")]
      else []) := by
  simp only [entryMsgs, Bool.false_eq_true, if_false,
    show (truthy data.repository = false) = (data.repository = none ∨ data.repository = some "")
      from propext (truthy_eq_false_iff data.repository),
    show (truthy data.tag = false) = (data.tag = none ∨ data.tag = some "")
      from propext (truthy_eq_false_iff data.tag)]

/-! ### Claim theorems: the Validator (C3, C4, C5, C10) -/

/-- C3, counterexample to the claim as stated: a record whose `repository`
and `tag` are both present (`some ""` and `some "v1.2.0"`), so the claim
predicts no message for the collection, yet `validate_tags` emits the
missing-repository message — Python's `not data["repository"]` also fires
on the empty string. -/
theorem c3_counterexample :
    validate_tags
        [("foo", { version := "1.2.0", repository := some "",
                   tag := some "v1.2.0" })] [] true =
      ["foo's repository is not specified at all in collection-meta.yaml"] ∧
    (some "" : Option String) ≠ none ∧
    (some "v1.2.0" : Option String) ≠ none := by
  refine ⟨by decide, by decide, by decide⟩

/-- C3 (amended): for a collection whose name is not ignored, the validator
emits exactly the missing-repository message when `repository` is absent or
empty, else exactly the missing-tag message when `tag` is absent or empty,
else no message for that collection; the rest of the output is the other
collections' blocks followed by the invalid-ignore tail. -/
theorem c3_per_collection_messages
    (td1 td2 : List (String × CollectionTagData)) (name : String)
    (data : CollectionTagData) (igs : List String) (flag : Bool)
    (hk : (collectionKeys (td1 ++ (name, data) :: td2)).Nodup)
    (hni : name ∉ igs) :
    validate_tags (td1 ++ (name, data) :: td2) igs flag =
      loopMsgs td1 igs flag ++
        (if data.repository = none ∨ data.repository = some "" then
          [noRepoMsg name]
        else if data.tag = none ∨ data.tag = some "" then
          [notTaggedMsg name data.version (data.repository.getD "")]
        else []) ++
        (loopMsgs td2 igs flag ++
          invalidTail (td1 ++ (name, data) :: td2) igs flag) := by
  rw [validate_tags_eq _ igs flag hk, loopMsgs_append,
    show loopMsgs ((name, data) :: td2) igs flag =
      entryMsgs (decide (name ∈ igs)) name data flag ++ loopMsgs td2 igs flag
      from rfl,
    decide_eq_false hni, entryMsgs_not_ignored]
  simp [List.append_assoc]

/-- C3 witness: scenario C of the spec — `bar` has no repository, the
validator produces exactly the missing-repository message. -/
theorem c3_per_collection_messages_witness :
    validate_tags
        [("bar", { version := "2.0.0", repository := none, tag := none })]
        [] true =
      ["bar's repository is not specified at all in collection-meta.yaml"] :=
  c3_per_collection_messages [] [] "bar"
    { version := "2.0.0", repository := none, tag := none } [] true
    (by decide) (by decide)

/-- C4, counterexample to the claim as stated: the ignored collection's
record has both `repository` and `tag` present (`some ""`, `some "v1.2.0"`)
and `error_on_useless_ignores` is true, so the claim predicts exactly one
useless-ignore message, yet `validate_tags` emits none — the source tests
`data["repository"] and data["tag"]`, and the empty string is falsy. -/
theorem c4_counterexample :
    validate_tags
        [("foo", { version := "1.2.0", repository := some "",
                   tag := some "v1.2.0" })] ["foo"] true = [] ∧
    (some "" : Option String) ≠ none ∧
    (some "v1.2.0" : Option String) ≠ none := by
  refine ⟨by decide, by decide, by decide⟩

/-- C4 (amended): for an ignored collection whose record has non-empty
`repository` and `tag` present, the validator emits exactly one
useless-ignore message when `error_on_useless_ignores` is true and none when
it is false; in both cases the name is removed from the working ignore set
(it is not among the remaining ignores) and no missing-repository or
missing-tag message is emitted for it. -/
theorem c4_useless_ignore
    (td1 td2 : List (String × CollectionTagData)) (name : String)
    (data : CollectionTagData) (igs : List String)
    (hk : (collectionKeys (td1 ++ (name, data) :: td2)).Nodup)
    (hig : name ∈ igs)
    (hrepo : truthy data.repository = true)
    (htag : truthy data.tag = true) :
    validate_tags (td1 ++ (name, data) :: td2) igs true =
      loopMsgs td1 igs true ++
        [uselessMsg name data.version] ++
        (loopMsgs td2 igs true ++
          invalidTail (td1 ++ (name, data) :: td2) igs true) ∧
    validate_tags (td1 ++ (name, data) :: td2) igs false =
      loopMsgs td1 igs false ++ loopMsgs td2 igs false ∧
    name ∉ remainingIgnores (td1 ++ (name, data) :: td2) igs := by
  refine ⟨?_, ?_, ?_⟩
  · rw [validate_tags_eq _ igs true hk, loopMsgs_append,
      show loopMsgs ((name, data) :: td2) igs true =
        entryMsgs (decide (name ∈ igs)) name data true ++ loopMsgs td2 igs true
        from rfl,
      decide_eq_true hig]
    simp [entryMsgs, hrepo, htag, List.append_assoc]
  · rw [validate_tags_eq _ igs false hk, loopMsgs_append,
      show loopMsgs ((name, data) :: td2) igs false =
        entryMsgs (decide (name ∈ igs)) name data false ++
          loopMsgs td2 igs false
        from rfl,
      decide_eq_true hig]
    simp [entryMsgs, invalidTail]
  · intro hmem
    have hkey : name ∈ collectionKeys (td1 ++ (name, data) :: td2) := by
      simp [collectionKeys]
    have := (List.mem_filter.mp hmem).2
    simp only [decide_eq_true_eq] at this
    exact this hkey

/-- C4 witness: scenario D of the spec — `foo` is properly tagged and
ignored; with `error_on_useless_ignores` true there is exactly the
useless-ignore message, with it false there is no message, and `foo` is no
longer among the remaining ignores. -/
theorem c4_useless_ignore_witness :
    validate_tags
        [("foo", { version := "1.2.0",
                   repository := some "https://example/foo.git",
                   tag := some "v1.2.0" })] ["foo"] true =
      ["useless ignore 'foo': foo 1.2.0 is properly tagged"] ∧
    validate_tags
        [("foo", { version := "1.2.0",
                   repository := some "https://example/foo.git",
                   tag := some "v1.2.0" })] ["foo"] false = [] ∧
    "foo" ∉ remainingIgnores
        [("foo", { version := "1.2.0",
                   repository := some "https://example/foo.git",
                   tag := some "v1.2.0" })] ["foo"] :=
  c4_useless_ignore [] [] "foo"
    { version := "1.2.0", repository := some "https://example/foo.git",
      tag := some "v1.2.0" } ["foo"]
    (by decide) (by decide) (by decide) (by decide)

/-- C5 (confirmed): an ignored name matching no collection is counted once
in the leftover working set; with `error_on_useless_ignores` true the output
is the loop messages followed by one invalid-ignore message per leftover
name (so exactly one stems from this name), and with it false the
invalid-ignore tail is not emitted at all. -/
theorem c5_invalid_ignore (td : List (String × CollectionTagData))
    (igs : List String) (name : String)
    (hk : (collectionKeys td).Nodup) (hig : name ∈ igs)
    (hnk : name ∉ collectionKeys td) :
    (remainingIgnores td igs).count name = 1 ∧
    validate_tags td igs true =
      loopMsgs td igs true ++
        (remainingIgnores td igs).map invalidIgnoreMsg ∧
    validate_tags td igs false = loopMsgs td igs false := by
  have hmem : name ∈ remainingIgnores td igs := by
    refine List.mem_filter.mpr ⟨List.mem_dedup.mpr hig, ?_⟩
    simpa using hnk
  have hnodup : (remainingIgnores td igs).Nodup :=
    (List.nodup_dedup igs).filter _
  refine ⟨List.count_eq_one_of_mem hnodup hmem, ?_, ?_⟩
  · rw [validate_tags_eq td igs true hk]
    have hne : (remainingIgnores td igs).isEmpty = false := by
      cases h : remainingIgnores td igs with
      | nil => rw [h] at hmem; cases hmem
      | cons a l => rfl
    simp [invalidTail, hne]
  · rw [validate_tags_eq td igs false hk]
    simp [invalidTail]

/-- C5 witness: the ignore `nope` matches no collection; with errors on
useless ignores there is exactly one invalid-ignore message, without there
is none. -/
theorem c5_invalid_ignore_witness :
    (remainingIgnores
        [("foo", { version := "1.2.0",
                   repository := some "https://example/foo.git",
                   tag := some "v1.2.0" })] ["nope"]).count "nope" = 1 ∧
    validate_tags
        [("foo", { version := "1.2.0",
                   repository := some "https://example/foo.git",
                   tag := some "v1.2.0" })] ["nope"] true =
      ["invalid ignore 'nope': nope does not match any collection"] ∧
    validate_tags
        [("foo", { version := "1.2.0",
                   repository := some "https://example/foo.git",
                   tag := some "v1.2.0" })] ["nope"] false = [] :=
  c5_invalid_ignore
    [("foo", { version := "1.2.0",
               repository := some "https://example/foo.git",
               tag := some "v1.2.0" })] ["nope"] "nope"
    (by decide) (by decide) (by decide)

/-- C10, counterexample to the claim as stated: the caller's ignore set
still contains `foo` after validation even though `foo` matched a
collection in the results — `validate_tags` works on a fresh copy
(`ignore_set = set(ignores)`) and never mutates the caller's collection. -/
theorem c10_counterexample :
    ignores_after_validate_tags
        [("foo", { version := "1.2.0",
                   repository := some "https://example/foo.git",
                   tag := some "v1.2.0" })] ["foo"] true = ["foo"] ∧
    "foo" ∈ collectionKeys
        [("foo", { version := "1.2.0",
                   repository := some "https://example/foo.git",
                   tag := some "v1.2.0" })] ∧
    "foo" ∈ (["foo"] : List String) := by
  refine ⟨rfl, by decide, by decide⟩

/-- C10 (amended): the validator consumes a private working copy of the
ignore set — after the loop the working set is exactly the deduplicated
ignores matching no collection name (every matched name was removed from
the copy), while the caller's ignore collection itself is unchanged. -/
theorem c10_ignores_working_copy (td : List (String × CollectionTagData))
    (igs : List String) (flag : Bool) :
    (validateTagsLoop td igs.dedup flag).2 =
      igs.dedup.filter (fun n => decide (n ∉ collectionKeys td)) ∧
    ignores_after_validate_tags td igs flag = igs :=
  ⟨validateTagsLoop_snd flag td igs.dedup (List.nodup_dedup igs), rfl⟩

/-! ### Claim theorems: the Per-Collection Resolver (C1, C2, C9) -/

/-- C1, counterexample to the claim as stated. First conjunct block: the
repository is present but empty (`some ""`); the fetched sequence would
contain `v1.0.0`, which normalizes to the expected version `1.0.0`, so the
claim says `tag` is set to it — but the resolver returns early on the falsy
repository, leaves `tag` absent and fetches nothing. Second block: a
present-and-compiling but empty tag-version pattern (`some ""`, compiling
to a matcher that normalizes every tag to `ZZZ`) is ignored by the code
(`if meta_data.tag_version_regex:` is false for the empty string), which
normalizes with the default pattern and finds a tag the claim says would
not match. -/
theorem c1_counterexample :
    ((_get_collection_tags (fun _ => ["v1.0.0"]) (fun _ => none) "1.0.0"
        { repository := some "", tag_version_regex := none }
        "foo").data.tag = none ∧
      (_get_collection_tags (fun _ => ["v1.0.0"]) (fun _ => none) "1.0.0"
        { repository := some "", tag_version_regex := none }
        "foo").fetched = [] ∧
      _normalize_tag "v1.0.0" none = some "1.0.0" ∧
      (some "" : Option String) ≠ none) ∧
    ((_get_collection_tags (fun _ => ["v1.2.3"])
        (fun _ => some (fun _ => some (some "ZZZ"))) "1.2.3"
        { repository := some "https://example/r.git",
          tag_version_regex := some "" }
        "foo").data.tag = some "v1.2.3" ∧
      _normalize_tag "v1.2.3" (some (fun _ => some (some "ZZZ"))) =
        some "ZZZ" ∧
      "ZZZ" ≠ "1.2.3") := by
  refine ⟨⟨by decide, by decide, by decide, by decide⟩, rfl, rfl, by decide⟩

/-- C1 (amended): for a collection with a non-empty repository and a
tag-version pattern that is either unset/empty (default normalization,
`rx = none`) or non-empty and successfully compiled (`rx = some m`), the
resolver sets `tag` to the first fetched tag whose normalized value equals
the expected version — every earlier fetched tag does not normalize to it —
and leaves `tag` absent exactly when no fetched tag normalizes to the
expected version. -/
theorem c1_first_matching_tag
    (fetch : String → List String) (compile : String → Option Matcher)
    (version name : String) (meta : CollectionMetadata) (rx : Option Matcher)
    (hrepo : truthy meta.repository = true)
    (hrx : (truthy meta.tag_version_regex = false ∧ rx = none) ∨
      (∃ s m, meta.tag_version_regex = some s ∧ s ≠ "" ∧
        compile s = some m ∧ rx = some m)) :
    (∀ t,
      (_get_collection_tags fetch compile version meta name).data.tag =
          some t →
        ∃ pre post,
          fetch (meta.repository.getD "") = pre ++ t :: post ∧
          _normalize_tag t rx = some version ∧
          ∀ u ∈ pre, _normalize_tag u rx ≠ some version) ∧
    ((_get_collection_tags fetch compile version meta name).data.tag =
        none ↔
      ∀ t ∈ fetch (meta.repository.getD ""),
        _normalize_tag t rx ≠ some version) := by
  have hres : (_get_collection_tags fetch compile version meta name).data.tag
      = (fetch (meta.repository.getD "")).find?
          (fun t => _normalize_tag t rx == some version) := by
    rcases hrx with ⟨hf, rfl⟩ | ⟨s, m, hs, hne, hc, rfl⟩
    · unfold _get_collection_tags
      simp [hrepo, hf]
    · have hts : truthy (some s) = true := by simp [truthy, hne]
      unfold _get_collection_tags
      simp [hrepo, hs, hc, hts]
  constructor
  · intro t ht
    rw [hres] at ht
    obtain ⟨pre, post, hsplit, hpt, hpre⟩ := find_eq_some_decomp _ _ t ht
    refine ⟨pre, post, hsplit, ?_, ?_⟩
    · exact eq_of_beq hpt
    · intro u hu heq
      have := hpre u hu
      rw [heq] at this
      simp at this
  · rw [hres]
    rw [List.find?_eq_none]
    constructor
    · intro h t ht heq
      have := h t ht
      rw [heq] at this
      simp at this
    · intro h t ht
      intro hb
      exact h t ht (eq_of_beq hb)

/-- C1 witness: scenario A of the spec — repository present, no custom
pattern, fetched tags `["v1.0.0", "v1.2.0"]`, expected version `1.2.0`:
the resolver picks `v1.2.0`, the first (and only) tag normalizing to it. -/
theorem c1_first_matching_tag_witness :
    truthy (some "https://example/foo.git") = true ∧
    ((∀ t,
      (_get_collection_tags (fun _ => ["v1.0.0", "v1.2.0"]) (fun _ => none)
          "1.2.0"
          { repository := some "https://example/foo.git",
            tag_version_regex := none } "foo").data.tag = some t →
        ∃ pre post,
          (fun _ => ["v1.0.0", "v1.2.0"] : String → List String)
              ((some "https://example/foo.git").getD "") = pre ++ t :: post ∧
          _normalize_tag t none = some "1.2.0" ∧
          ∀ u ∈ pre, _normalize_tag u none ≠ some "1.2.0") ∧
    ((_get_collection_tags (fun _ => ["v1.0.0", "v1.2.0"]) (fun _ => none)
          "1.2.0"
          { repository := some "https://example/foo.git",
            tag_version_regex := none } "foo").data.tag = none ↔
      ∀ t ∈ (fun _ => ["v1.0.0", "v1.2.0"] : String → List String)
          ((some "https://example/foo.git").getD ""),
        _normalize_tag t none ≠ some "1.2.0")) :=
  ⟨by decide,
    c1_first_matching_tag (fun _ => ["v1.0.0", "v1.2.0"]) (fun _ => none)
      "1.2.0" "foo"
      { repository := some "https://example/foo.git",
        tag_version_regex := none } none
      (by decide) (Or.inl ⟨by decide, rfl⟩)⟩

/-- C2 (confirmed): when the metadata has no repository, the resolver
returns the record with `tag` absent — whatever the declared version, the
fetcher and the compile function — and invokes the fetcher on no repository
at all. -/
theorem c2_no_repository_no_tag_no_fetch
    (fetch : String → List String) (compile : String → Option Matcher)
    (version name : String) (meta : CollectionMetadata)
    (h : meta.repository = none) :
    (_get_collection_tags fetch compile version meta name).data.tag = none ∧
    (_get_collection_tags fetch compile version meta name).fetched = [] := by
  unfold _get_collection_tags
  simp [h, truthy]

/-- C2 witness: a collection with no repository and declared version
`9.9.9` resolves to a record with no tag and no fetch. -/
theorem c2_no_repository_witness :
    (_get_collection_tags (fun _ => ["v9.9.9"]) (fun _ => none) "9.9.9"
      { repository := none, tag_version_regex := none }
      "foo").data.tag = none ∧
    (_get_collection_tags (fun _ => ["v9.9.9"]) (fun _ => none) "9.9.9"
      { repository := none, tag_version_regex := none }
      "foo").fetched = [] :=
  c2_no_repository_no_tag_no_fetch (fun _ => ["v9.9.9"]) (fun _ => none)
    "9.9.9" "foo" { repository := none, tag_version_regex := none } rfl

/-- C9 (code bug): with the invalid pattern `(` for collection `foo`, the
resolver does return the record with `tag` absent and fetches nothing
(non-fatal, as claimed), but the error it logs is literally
`"None is an invalid regex"` — the source formats the local variable
`tag_version_regex`, which is still `None` when `re.compile` raises, so the
logged message never contains the offending pattern; only the collection
name reaches the log, as a field. -/
theorem c9_invalid_regex_logs_no_pattern :
    (_get_collection_tags (fun _ => ["v1.2.0"]) (fun _ => none) "1.2.0"
      { repository := some "https://example/foo.git",
        tag_version_regex := some "(" }
      "foo").log_errors = [("foo", "None is an invalid regex")] ∧
    (_get_collection_tags (fun _ => ["v1.2.0"]) (fun _ => none) "1.2.0"
      { repository := some "https://example/foo.git",
        tag_version_regex := some "(" }
      "foo").data.tag = none ∧
    (_get_collection_tags (fun _ => ["v1.2.0"]) (fun _ => none) "1.2.0"
      { repository := some "https://example/foo.git",
        tag_version_regex := some "(" }
      "foo").fetched = [] := by
  refine ⟨by decide, by decide, by decide⟩

/-! ### Claim theorems: fetcher and normalizer (C6, C7, C8) -/

/-- C6 (confirmed): when the `git ls-remote` process exits non-zero the
fetcher yields the empty sequence (the failure is only logged — `_get_tags`
is total and returns, it raises nothing), and a resolver consuming that
fetcher therefore degrades to the no-tag-found outcome: `tag` stays absent
whatever the expected version. -/
theorem c6_nonzero_exit_yields_nothing (proc : ProcResult)
    (h : proc.returncode ≠ 0) :
    _get_tags proc = [] ∧
    ∀ (compile : String → Option Matcher) (version name repo : String)
      (cd : Option String),
      (_get_collection_tags (fun _ => _get_tags proc) compile version
        { repository := some repo, tag_version_regex := none,
          collection_directory := cd } name).data.tag = none := by
  have hempty : _get_tags proc = [] := by
    unfold _get_tags
    simp [bne_iff_ne, h]
  refine ⟨hempty, ?_⟩
  intro compile version name repo cd
  by_cases hr : truthy (some repo) = false
  · unfold _get_collection_tags
    simp [hr]
  · unfold _get_collection_tags
    simp [hr, hempty, truthy]
    split <;> rfl

/-- C6 witness: exit code 1 with tag-shaped output still yields no tags,
and the resolver for `foo` at version `1.0.0` finds no tag. -/
theorem c6_nonzero_exit_witness :
    _get_tags { returncode := 1,
                stdout_lines := ["deadbeef\trefs/tags/v1.0.0"] } = [] ∧
    ∀ (compile : String → Option Matcher) (version name repo : String)
      (cd : Option String),
      (_get_collection_tags
        (fun _ => _get_tags { returncode := 1,
                              stdout_lines := ["deadbeef\trefs/tags/v1.0.0"] })
        compile version
        { repository := some repo, tag_version_regex := none,
          collection_directory := cd } name).data.tag = none :=
  c6_nonzero_exit_yields_nothing
    { returncode := 1, stdout_lines := ["deadbeef\trefs/tags/v1.0.0"] }
    (by decide)

theorem stripLeadingV_of_not_headIsV (s : String) (h : headIsV s = false) :
    stripLeadingV s = s := by
  unfold stripLeadingV
  unfold headIsV at h
  cases hs : s.data with
  | nil => rfl
  | cons c rest =>
    rw [hs] at h
    have h' : (c == 'v') = false := h
    show (if c == 'v' then String.mk rest else s) = s
    rw [h']
    simp

theorem stripLeadingV_of_headIsV (s : String) (h : headIsV s = true) :
    stripLeadingV s = String.mk (s.data.drop 1) := by
  unfold stripLeadingV
  unfold headIsV at h
  cases hs : s.data with
  | nil => rw [hs] at h; cases h
  | cons c rest =>
    rw [hs] at h
    have h' : (c == 'v') = true := h
    show (if c == 'v' then String.mk rest else s) =
      String.mk ((c :: rest).drop 1)
    rw [h']
    simp

/-- C7 (confirmed): under the default pattern, normalization of `t` yields
`t` itself when `t` does not start with `v` and `t` without its first
character when it does — so at most one leading `v` is stripped — and is
idempotent on any result that has no further leading `v`. -/
theorem c7_default_normalization_strips_once (t r : String)
    (hr : _normalize_tag t none = some r) :
    (headIsV t = false → r = t) ∧
    (headIsV t = true → r = String.mk (t.data.drop 1)) ∧
    (headIsV r = false → _normalize_tag r none = some r) := by
  have hr' : r = stripLeadingV t := by
    have h0 : _normalize_tag t none = some (stripLeadingV t) := rfl
    rw [h0] at hr
    exact (Option.some_inj.mp hr).symm
  subst hr'
  refine ⟨fun h => stripLeadingV_of_not_headIsV t h,
    fun h => stripLeadingV_of_headIsV t h, fun h => ?_⟩
  show some (stripLeadingV (stripLeadingV t)) = some (stripLeadingV t)
  rw [stripLeadingV_of_not_headIsV _ h]

/-- C7 witness: `v1.2.3` normalizes to `1.2.3` (one `v` stripped), which
does not start with `v`, and normalizing again is the identity. -/
theorem c7_default_normalization_witness :
    (headIsV "v1.2.3" = false → "1.2.3" = "v1.2.3") ∧
    (headIsV "v1.2.3" = true →
      "1.2.3" = String.mk ("v1.2.3".data.drop 1)) ∧
    (headIsV "1.2.3" = false → _normalize_tag "1.2.3" none = some "1.2.3") :=
  c7_default_normalization_strips_once "v1.2.3" "1.2.3" (by decide)

/-- C8 (confirmed): for any supplied pattern that does not match the tag,
`_normalize_tag` returns the tag unchanged (it is a total function — no
exception path exists for unmatched input); the default pattern, for its
part, matches every tag. -/
theorem c8_unmatched_pattern_returns_tag (m : Matcher) (t : String)
    (h : m t = none) :
    _normalize_tag t (some m) = some t ∧
    TAG_VERSION_REGEX t = some (some (stripLeadingV t)) := by
  constructor
  · unfold _normalize_tag
    simp [h]
  · rfl

/-- C8 witness: a matcher rejecting everything leaves the tag `3.0.0-rc1`
unchanged. -/
theorem c8_unmatched_pattern_witness :
    _normalize_tag "3.0.0-rc1" (some (fun _ => none)) = some "3.0.0-rc1" ∧
    TAG_VERSION_REGEX "3.0.0-rc1" =
      some (some (stripLeadingV "3.0.0-rc1")) :=
  c8_unmatched_pattern_returns_tag (fun _ => none) "3.0.0-rc1" rfl
